import Mathlib

/-
Verification of the training/validation control loop of `src/train.py`
(BiSeNet semantic-segmentation training script).

The pure metric functions (`compute_global_accuracy`, `fast_hist`,
`per_class_iu`), the learning-rate scheduler (`poly_lr_scheduler`) and the
Dice loss live in `utils.py` / `loss.py`, which are not part of the available
sources; those are modelled from the specification and are marked as such.
Everything else is a shallow embedding of `src/train.py`.

Conventions of the embedding:
  - a validation batch is the flattened array of pixels, each pixel the pair
    (predicted class, true class) after arg-max decoding;
  - rational numbers stand in for Python floats; division by zero in `ℚ`
    yields 0, which is the sentinel chosen for an empty IoU union (the spec
    allows "0 or NaN" as the sentinel);
  - the mutable state of `train` (model, optimizer, best-mIoU tracker, the
    files it writes) is passed explicitly, and every file write performed by
    the loop is recorded as an event in an append-only trace;
  - the model, the optimizer and the data loader are treated as the spec
    treats them: external collaborators, here type parameters and
    function parameters.
-/

namespace Project2IDDA

/-! ## Metric engine (modelled from the spec; `utils.py` is not under `src/`) -/

/-- A validation pixel: (predicted class, true class). -/
abbrev Pixel := ℕ × ℕ

/-- A validation batch, flattened to its pixels. -/
abbrev VBatch := List Pixel

/-- Modelled from the spec: `compute_global_accuracy` from `utils.py`
(not under `src/`): the fraction of positions where prediction equals
label, counting all positions in the denominator. -/
def compute_global_accuracy (b : VBatch) : ℚ :=
  ((b.filter (fun p => p.1 == p.2)).length : ℚ) / (b.length : ℚ)

/-- Modelled from the spec: `fast_hist` from `utils.py` (not under `src/`):
the confusion matrix of one batch; for every pixel whose label lies in
`[0, n)` the cell (label, prediction) is incremented; pixels with an
out-of-range label are excluded. The matrix is represented as a total
function on indices, zero outside the accumulated cells. -/
def fast_hist (b : VBatch) (n : ℕ) : ℕ → ℕ → ℕ :=
  fun i j => (b.filter (fun p => p.2 == i && p.1 == j && decide (p.2 < n))).length

/-- Modelled from the spec: `per_class_iu` from `utils.py` (not under
`src/`): per-class IoU of a confusion matrix; class `i` gets
`hist[i][i] / (row_sum i + col_sum i - hist[i][i])`, with 0 as the sentinel
when the union is empty (division by zero in `ℚ`). -/
def per_class_iu (hist : ℕ → ℕ → ℕ) (n : ℕ) : List ℚ :=
  (List.range n).map (fun i =>
    ((hist i i : ℚ)) /
      (((∑ j ∈ Finset.range n, hist i j : ℕ) : ℚ)
        + ((∑ j ∈ Finset.range n, hist j i : ℕ) : ℚ) - (hist i i : ℚ)))

/-- Arithmetic mean as `numpy.mean` computes it (sum divided by length;
on the empty list the `ℚ` quotient degenerates to 0). -/
def npMean (xs : List ℚ) : ℚ := xs.sum / (xs.length : ℚ)

/-! ## Validation loop (`val`, src/train.py lines 17-62) -/

/-- One iteration of the `val` loop (src/train.py lines 25-46): append the
batch's global pixel accuracy to `precision_record` and add the batch's
`fast_hist` into the running confusion matrix `hist`. -/
def valStep (n : ℕ) (st : List ℚ × (ℕ → ℕ → ℕ)) (b : VBatch) :
    List ℚ × (ℕ → ℕ → ℕ) :=
  (st.1 ++ [compute_global_accuracy b], fun i j => st.2 i j + fast_hist b n i j)

/-- The validation loop `val` (src/train.py lines 17-62): starting from an
empty `precision_record` and the zero confusion matrix, fold `valStep` over
the batches, then return the mean precision and the mean of the per-class
IoU vector with the last class dropped (`per_class_iu(hist)[:-1]`). -/
def val (n : ℕ) (batches : List VBatch) : ℚ × ℚ :=
  let r := batches.foldl (valStep n) ([], fun _ _ => 0)
  let precision := npMean r.1
  let miou_list := (per_class_iu r.2 n).dropLast
  let miou := npMean miou_list
  (precision, miou)

/-- The confusion matrix accumulated by `val` over its batches (the second
component of the fold state, starting from the zero matrix). -/
def val_hist (n : ℕ) (batches : List VBatch) : ℕ → ℕ → ℕ :=
  (batches.foldl (valStep n) ([], fun _ _ => 0)).2

/-- The batch-wise sum of the per-batch confusion matrices. -/
def totalHist (n : ℕ) (batches : List VBatch) : ℕ → ℕ → ℕ :=
  fun i j => (batches.map (fun b => fast_hist b n i j)).sum

/-! ## Learning-rate scheduler (modelled from the spec;
`poly_lr_scheduler` lives in `utils.py`, not under `src/`) -/

/-- The optimizer as the scheduler sees it: the list of its parameter
groups, each reduced to its mutable learning-rate field. -/
structure Optimizer where
  param_groups : List ℝ

/-- Modelled from the spec: `poly_lr_scheduler` from `utils.py` (not under
`src/`). Given base rate `init_lr`, 1-based epoch `t` and maximum epoch
count `T`, it computes `init_lr * (1 - t/T) ^ 0.9`, clamps it from below by
the small minimum threshold `min_lr`, overwrites the learning-rate field of
every parameter group with the result, and returns the applied rate. -/
noncomputable def poly_lr_scheduler (optimizer : Optimizer) (init_lr : ℝ)
    (t T : ℕ) (min_lr : ℝ) : Optimizer × ℝ :=
  let lr := max (init_lr * (1 - (t : ℝ) / (T : ℝ)) ^ (0.9 : ℝ)) min_lr
  ({ param_groups := optimizer.param_groups.map (fun _ => lr) }, lr)

/-! ## Training loop (`train`, src/train.py lines 65-142) and orchestrator
(`main`, src/train.py lines 145-238).

The model, the optimizer and the data are the spec's external collaborators:
model state and optimizer state are the type parameters `M` and `O`, a
training batch carries the model's three outputs (type `B`) for its input
together with the label (type `C`), the numeric value of a loss application
is an uninterpreted function `lossSem`, and the optimizer step is an
uninterpreted state transformer `stepM`. Validation results per epoch are an
uninterpreted function `valOf` (the `val` call on the held-out loader with
the model state of that epoch). Every file write of the loop is recorded as
an event. -/

/-- The loss kinds supported by lines 69-72 of src/train.py. -/
inductive LossKind where
  | dice
  | crossentropy
  deriving DecidableEq, Repr

/-- Loss selection, src/train.py lines 69-72: an `if`/`elif` chain with no
`else`, so any other name leaves the local variable `loss_func` unbound
(modelled as `none`). -/
def loss_func_of (s : String) : Option LossKind :=
  if s = "dice" then some LossKind.dice
  else if s = "crossentropy" then some LossKind.crossentropy
  else none

/-- The optimizer kinds supported by lines 210-218 of src/train.py. -/
inductive OptName where
  | rmsprop
  | sgd
  | adam
  deriving DecidableEq, Repr

/-- Optimizer selection, src/train.py lines 210-218: an `if`/`elif` chain
whose `else` prints "not supported optimizer" and returns `None`. -/
def buildOptimizer (s : String) : Option OptName :=
  if s = "rmsprop" then some OptName.rmsprop
  else if s = "sgd" then some OptName.sgd
  else if s = "adam" then some OptName.adam
  else none

/-- The configuration fields of `args` that the embedded loop reads. -/
structure Args where
  num_epochs : ℕ
  checkpoint_step : ℕ
  validation_step : ℕ
  loss : String
  optimizer : String
  save_model_path : String
  deriving DecidableEq, Repr

/-- A training batch as the loop sees it after the forward pass
(src/train.py line 90): the three model outputs and the label. -/
structure TBatch (B C : Type) where
  output : B
  output_sup1 : B
  output_sup2 : B
  label : C
  deriving DecidableEq, Repr

/-- The checkpoint record of src/train.py lines 122-126: exactly the keys
`epoch`, `model_state_dict`, `optimizer_state_dict`. -/
structure Checkpoint (M O : Type) where
  epoch : ℕ
  model_state_dict : M
  optimizer_state_dict : O
  deriving DecidableEq, Repr

/-- The observable actions of one run: the start of an epoch (line 76), a
backward pass with its loss value (lines 95-102), a checkpoint write (lines
128-129, payload `Checkpoint`), and a best-model write (lines 139-140,
payload the model state dict only). -/
inductive Event (M O : Type) where
  | epochStart (epoch : ℕ)
  | backward (loss : ℚ)
  | ckpt (path : String) (c : Checkpoint M O)
  | best (path : String) (model_state_dict : M)
  deriving DecidableEq, Repr

/-- The ways the embedded run can terminate abnormally. -/
inductive RunError where
  | unboundLoss
  | unsupportedOptimizer
  deriving DecidableEq, Repr

/-- The mutable state threaded through `train`: model and optimizer state,
the best-mIoU tracker `max_miou` (line 73), the number of training batches
fetched from the loader so far, and the event trace. -/
structure TrainSt (M O : Type) where
  model : M
  opt : O
  max_miou : ℚ
  fetched : ℕ
  events : List (Event M O)
  deriving DecidableEq, Repr

/-- Python `os.path.join` restricted to a relative second component. -/
def os_path_join (a b : String) : String := a ++ "/" ++ b

/-- The guard shared by lines 116 and 134 of src/train.py:
`epoch % step == 0 and epoch != 0`. -/
def stepCond (step epoch : ℕ) : Bool := epoch % step == 0 && epoch != 0

/-- The epochs executed by the loop of line 76:
`range(curr_epoch + 1, num_epochs + 1)`. -/
def epochRange (curr_epoch num_epochs : ℕ) : List ℕ :=
  List.range' (curr_epoch + 1) (num_epochs - curr_epoch)

/-- The inner batch loop of src/train.py lines 84-108. Each iteration
fetches a batch and runs the forward pass; if `loss_func` is unbound the
loss application fails (Python `UnboundLocalError`); otherwise the three
losses against the same label are summed, backward runs on the sum, and the
optimizer step updates model and optimizer state. -/
def runBatches {M O B C : Type} (loss_func : Option (B → C → ℚ))
    (stepM : M → O → TBatch B C → M × O) :
    List (TBatch B C) → TrainSt M O → TrainSt M O × Option RunError
  | [], s => (s, none)
  | b :: bs, s =>
    let s1 : TrainSt M O := { s with fetched := s.fetched + 1 }
    match loss_func with
    | none => (s1, some RunError.unboundLoss)
    | some f =>
      let loss1 := f b.output b.label
      let loss2 := f b.output_sup1 b.label
      let loss3 := f b.output_sup2 b.label
      let loss := loss1 + loss2 + loss3
      let mo := stepM s1.model s1.opt b
      runBatches loss_func stepM bs
        { s1 with model := mo.1, opt := mo.2,
                  events := s1.events ++ [Event.backward loss] }

/-- One epoch of src/train.py lines 76-142: run all batches, then write the
single-slot latest checkpoint when `epoch % checkpoint_step == 0 and epoch
!= 0` (lines 116-131), then validate when `epoch % validation_step == 0 and
epoch != 0` and overwrite the best-model file with the model state dict
alone when the returned mIoU strictly exceeds `max_miou` (lines 134-142). -/
def epochBody {M O B C : Type} (args : Args) (loss_func : Option (B → C → ℚ))
    (stepM : M → O → TBatch B C → M × O) (data : ℕ → List (TBatch B C))
    (valOf : ℕ → ℚ × ℚ) (epoch : ℕ) (s : TrainSt M O) :
    TrainSt M O × Option RunError :=
  let s0 : TrainSt M O := { s with events := s.events ++ [Event.epochStart epoch] }
  let r := runBatches loss_func stepM (data epoch) s0
  if r.2.isSome then r
  else
    let s1 := r.1
    let s2 : TrainSt M O :=
      if stepCond args.checkpoint_step epoch then
        { s1 with events := s1.events ++
            [Event.ckpt (os_path_join args.save_model_path "latest_dice_loss.pth")
              { epoch := epoch, model_state_dict := s1.model,
                optimizer_state_dict := s1.opt }] }
      else s1
    let s3 : TrainSt M O :=
      if stepCond args.validation_step epoch then
        let pm := valOf epoch
        if pm.2 > s2.max_miou then
          { s2 with max_miou := pm.2,
                    events := s2.events ++
                      [Event.best (os_path_join args.save_model_path "best_dice_loss.pth")
                        s2.model] }
        else s2
      else s2
    (s3, none)

/-- The epoch loop of line 76, propagating a batch-level failure. -/
def runEpochs {M O B C : Type} (args : Args) (loss_func : Option (B → C → ℚ))
    (stepM : M → O → TBatch B C → M × O) (data : ℕ → List (TBatch B C))
    (valOf : ℕ → ℚ × ℚ) :
    List ℕ → TrainSt M O → TrainSt M O × Option RunError
  | [], s => (s, none)
  | e :: es, s =>
    let r := epochBody args loss_func stepM data valOf e s
    if r.2.isSome then r
    else runEpochs args loss_func stepM data valOf es r.1

/-- The `train` function of src/train.py lines 65-142: pick the loss by
name (lines 69-72), set `max_miou = 0` (line 73), and iterate the epochs
`curr_epoch + 1 .. num_epochs` (line 76). -/
def train {M O B C : Type} (args : Args) (lossSem : LossKind → B → C → ℚ)
    (stepM : M → O → TBatch B C → M × O) (data : ℕ → List (TBatch B C))
    (valOf : ℕ → ℚ × ℚ) (model0 : M) (opt0 : O) (curr_epoch : ℕ) :
    TrainSt M O × Option RunError :=
  let loss_func := (loss_func_of args.loss).map lossSem
  runEpochs args loss_func stepM data valOf
    (epochRange curr_epoch args.num_epochs)
    { model := model0, opt := opt0, max_miou := 0, fetched := 0, events := [] }

/-- The outcome of `main`. -/
structure MainResult (M O : Type) where
  curr_epoch : ℕ
  st : TrainSt M O
  error : Option RunError
  deriving DecidableEq, Repr

/-- The `main` function of src/train.py lines 145-238 (the parts after the
collaborators are built): dispatch on the optimizer name (lines 210-218),
returning `None` on an unsupported name before any training; otherwise, if
a pretrained checkpoint is given, restore model and optimizer state from it
and set `curr_epoch = checkpoint.epoch + 1` (lines 221-233); then call
`train`. -/
def mainRun {M O B C : Type} (args : Args) (lossSem : LossKind → B → C → ℚ)
    (stepM : M → O → TBatch B C → M × O) (data : ℕ → List (TBatch B C))
    (valOf : ℕ → ℚ × ℚ) (model_init : M) (opt_init : O)
    (pretrained : Option (Checkpoint M O)) : MainResult M O :=
  match buildOptimizer args.optimizer with
  | none =>
    { curr_epoch := 0,
      st := { model := model_init, opt := opt_init, max_miou := 0,
              fetched := 0, events := [] },
      error := some RunError.unsupportedOptimizer }
  | some _ =>
    let restored : M × O × ℕ :=
      match pretrained with
      | none => (model_init, opt_init, 0)
      | some c => (c.model_state_dict, c.optimizer_state_dict, c.epoch + 1)
    let r := train args lossSem stepM data valOf restored.1 restored.2.1 restored.2.2
    { curr_epoch := restored.2.2, st := r.1, error := r.2 }

/-! ## Trace observations and the specification-side best tracker -/

/-- The (path, epoch) pairs of the checkpoint writes in a trace. -/
def ckptRecords {M O : Type} (evs : List (Event M O)) : List (String × ℕ) :=
  evs.filterMap (fun ev => match ev with
    | Event.ckpt p c => some (p, c.epoch)
    | _ => none)

/-- The paths of the best-model writes in a trace. -/
def bestPaths {M O : Type} (evs : List (Event M O)) : List String :=
  evs.filterMap (fun ev => match ev with
    | Event.best p _ => some p
    | _ => none)

/-- The loss values sent to backward, in order. -/
def backwardVals {M O : Type} (evs : List (Event M O)) : List ℚ :=
  evs.filterMap (fun ev => match ev with
    | Event.backward v => some v
    | _ => none)

/-- The epochs whose body started, in order. -/
def epochStarts {M O : Type} (evs : List (Event M O)) : List ℕ :=
  evs.filterMap (fun ev => match ev with
    | Event.epochStart e => some e
    | _ => none)

/-- The aggregate loss of one batch: the chosen loss applied independently
to each of the three outputs against the same label, summed unweighted. -/
def tripleLoss {B C : Type} (f : B → C → ℚ) (b : TBatch B C) : ℚ :=
  f b.output b.label + f b.output_sup1 b.label + f b.output_sup2 b.label

/-- One update of the best tracker: the new maximum after seeing `x`. -/
def bestUpd (m x : ℚ) : ℚ := if x > m then x else m

/-- The best tracker after a sequence of validation mIoUs. -/
def runMax (m : ℚ) (l : List ℚ) : ℚ := l.foldl bestUpd m

/-- The validation mIoUs that strictly improve on the running maximum,
i.e. exactly those that trigger a best-model write. -/
def bestWrites (m : ℚ) : List ℚ → List ℚ
  | [] => []
  | x :: xs => if x > m then x :: bestWrites x xs else bestWrites m xs

/-- The successive values of the best tracker. -/
def maxSeq (m : ℚ) : List ℚ → List ℚ
  | [] => []
  | x :: xs => bestUpd m x :: maxSeq (bestUpd m x) xs

/-- The mIoUs returned by validation in one run: the epochs that satisfy
the validation guard, mapped through the validation outcome. -/
def valMious (valOf : ℕ → ℚ × ℚ) (vstep : ℕ) (es : List ℕ) : List ℚ :=
  (es.filter (fun e => stepCond vstep e)).map (fun e => (valOf e).2)

/-! ## Concrete fixtures for closed instances: trivial collaborators over
unit batches, counter-valued model and optimizer states. -/

def lossW : LossKind → Unit → Unit → ℚ := fun _ _ _ => 1

def stepW : ℕ → ℕ → TBatch Unit Unit → ℕ × ℕ := fun m o _ => (m + 1, o + 1)

def dataW : ℕ → List (TBatch Unit Unit) :=
  fun _ => [{ output := (), output_sup1 := (), output_sup2 := (), label := () }]

def dataEmpty : ℕ → List (TBatch Unit Unit) := fun _ => []

def valW : ℕ → ℚ × ℚ :=
  fun e => (1, if e = 1 then 2/5 else if e = 2 then 7/20 else 1/2)

def valW10 : ℕ → ℚ × ℚ := fun e => (0, if e = 2 then 0 else 1)

def ckptW : Checkpoint ℕ ℕ := { epoch := 0, model_state_dict := 7, optimizer_state_dict := 7 }

def argsOpt : Args :=
  { num_epochs := 2, checkpoint_step := 2, validation_step := 2,
    loss := "dice", optimizer := "foo", save_model_path := "ck" }

def argsW : Args :=
  { num_epochs := 3, checkpoint_step := 2, validation_step := 1,
    loss := "dice", optimizer := "sgd", save_model_path := "ck" }

def argsFoo : Args :=
  { num_epochs := 1, checkpoint_step := 5, validation_step := 5,
    loss := "focal", optimizer := "sgd", save_model_path := "ck" }

def argsC1 : Args :=
  { num_epochs := 8, checkpoint_step := 3, validation_step := 3,
    loss := "dice", optimizer := "sgd", save_model_path := "ck" }

/-! ## Theorems -/

/-- Characterisation of the `val` fold: the accuracy record collects the
per-batch accuracies in order and the matrix is the pointwise sum of the
per-batch matrices on top of the initial state. -/
theorem val_foldl (n : ℕ) (batches : List VBatch) (acc : List ℚ)
    (h : ℕ → ℕ → ℕ) :
    batches.foldl (valStep n) (acc, h)
      = (acc ++ batches.map compute_global_accuracy,
         fun i j => h i j + (batches.map (fun b => fast_hist b n i j)).sum) := by
  induction batches generalizing acc h with
  | nil => simp
  | cons b bs ih =>
      simp only [List.foldl_cons, valStep, List.map_cons, List.sum_cons]
      rw [ih]
      refine Prod.ext ?_ ?_
      · simp
      · funext i j
        simp [add_assoc]

/-- C5. For every validation pass over a finite sequence of batches, `val`
returns the pair (precision, miou) where precision is the arithmetic mean of
the per-batch global pixel accuracies and miou is the mean of the per-class
IoU vector of the accumulated (batch-wise summed) confusion matrix with the
last (void) class excluded from the average. -/
theorem C5_val_returns_mean_precision_and_miou (n : ℕ) (batches : List VBatch) :
    val n batches
      = (npMean (batches.map compute_global_accuracy),
         npMean ((per_class_iu (totalHist n batches) n).dropLast)) := by
  have h := val_foldl n batches [] (fun _ _ => 0)
  have hh : (batches.foldl (valStep n) ([], fun _ _ => 0)).2 = totalHist n batches := by
    rw [h]; funext i j; simp [totalHist]
  simp only [val, h, hh]
  rw [h] at hh
  simp only [List.nil_append] at hh ⊢
  rw [hh]

/-- C8. Confusion-matrix accumulation in the validation loop is commutative
across batch order: starting from the zero matrix reset at the start of the
validation call, accumulating the per-batch histograms of [B1, B2] yields
the same matrix as accumulating [B2, B1]. -/
theorem C8_hist_accumulation_commutative (n : ℕ) (B1 B2 : VBatch) :
    val_hist n [B1, B2] = val_hist n [B2, B1] := by
  funext i j
  simp only [val_hist, List.foldl_cons, List.foldl_nil, valStep]
  ring

/-- The polynomial-decay factor is antitone on [0, T]. -/
theorem poly_decay_antitone (init_lr : ℝ) (h0 : 0 ≤ init_lr) (t u T : ℕ)
    (htu : t ≤ u) (hT : u ≤ T) :
    init_lr * (1 - (u : ℝ) / (T : ℝ)) ^ (0.9 : ℝ)
      ≤ init_lr * (1 - (t : ℝ) / (T : ℝ)) ^ (0.9 : ℝ) := by
  rcases Nat.eq_zero_or_pos T with hTz | hTp
  · subst hTz
    interval_cases u
    interval_cases t
    simp
  · have hTr : (0 : ℝ) < (T : ℝ) := by exact_mod_cast hTp
    have hu1 : (u : ℝ) / (T : ℝ) ≤ 1 := by
      rw [div_le_one hTr]; exact_mod_cast hT
    have hle : (t : ℝ) / (T : ℝ) ≤ (u : ℝ) / (T : ℝ) := by
      apply (div_le_div_iff_of_pos_right hTr).mpr
      exact_mod_cast htu
    refine mul_le_mul_of_nonneg_left ?_ h0
    have h1 : (0 : ℝ) ≤ 1 - (u : ℝ) / (T : ℝ) := by linarith
    have h2 : 1 - (u : ℝ) / (T : ℝ) ≤ 1 - (t : ℝ) / (T : ℝ) := by linarith
    exact Real.rpow_le_rpow h1 h2 (by norm_num)

/-- C4. For epochs t ≤ u in [1, T], the scheduler applies to every optimizer
parameter group the rate `init_lr * (1 - t/T) ^ 0.9` clamped below by the
minimum threshold, returns exactly that value, and the applied rate is
monotonically non-increasing in the epoch. -/
theorem C4_poly_lr (init_lr min_lr : ℝ) (h0 : 0 ≤ init_lr) (opt : Optimizer)
    (t u T : ℕ) (_ht : 1 ≤ t) (htu : t ≤ u) (hT : u ≤ T) :
    (poly_lr_scheduler opt init_lr t T min_lr).2
        = max (init_lr * (1 - (t : ℝ) / (T : ℝ)) ^ (0.9 : ℝ)) min_lr
    ∧ (∀ g ∈ (poly_lr_scheduler opt init_lr t T min_lr).1.param_groups,
        g = (poly_lr_scheduler opt init_lr t T min_lr).2)
    ∧ (poly_lr_scheduler opt init_lr u T min_lr).2
        ≤ (poly_lr_scheduler opt init_lr t T min_lr).2 := by
  refine ⟨rfl, ?_, ?_⟩
  · intro g hg
    simp only [poly_lr_scheduler, List.mem_map] at hg ⊢
    obtain ⟨_, _, hgeq⟩ := hg
    exact hgeq.symm
  · simp only [poly_lr_scheduler]
    exact max_le_max (poly_decay_antitone init_lr h0 t u T htu hT) le_rfl

/-- Witness for C4 at init_lr = 1, min_lr = 0, t = 1, u = 2, T = 2, one
parameter group. -/
theorem C4_poly_lr_witness :
    (0 : ℝ) ≤ 1 ∧ 1 ≤ 1 ∧ 1 ≤ 2 ∧ 2 ≤ 2 ∧
    ((poly_lr_scheduler ⟨[1]⟩ 1 1 2 0).2
        = max ((1 : ℝ) * (1 - (1 : ℕ) / ((2 : ℕ) : ℝ)) ^ (0.9 : ℝ)) 0
      ∧ (∀ g ∈ (poly_lr_scheduler ⟨[1]⟩ 1 1 2 0).1.param_groups,
          g = (poly_lr_scheduler ⟨[1]⟩ 1 1 2 0).2)
      ∧ (poly_lr_scheduler ⟨[1]⟩ 1 2 2 0).2 ≤ (poly_lr_scheduler ⟨[1]⟩ 1 1 2 0).2) :=
  ⟨by norm_num, by norm_num, by norm_num, by norm_num,
    C4_poly_lr 1 0 (by norm_num) ⟨[1]⟩ 1 2 2 (by norm_num) (by norm_num) (by norm_num)⟩

@[simp] theorem ckptRecords_nil {M O : Type} :
    ckptRecords ([] : List (Event M O)) = [] := rfl

@[simp] theorem ckptRecords_append {M O : Type} (a b : List (Event M O)) :
    ckptRecords (a ++ b) = ckptRecords a ++ ckptRecords b :=
  List.filterMap_append a b _

@[simp] theorem ckptRecords_epochStart {M O : Type} (e : ℕ) (l : List (Event M O)) :
    ckptRecords (Event.epochStart e :: l) = ckptRecords l := rfl

@[simp] theorem ckptRecords_backward {M O : Type} (v : ℚ) (l : List (Event M O)) :
    ckptRecords (Event.backward v :: l) = ckptRecords l := rfl

@[simp] theorem ckptRecords_ckpt {M O : Type} (p : String) (c : Checkpoint M O)
    (l : List (Event M O)) :
    ckptRecords (Event.ckpt p c :: l) = (p, c.epoch) :: ckptRecords l := rfl

@[simp] theorem ckptRecords_best {M O : Type} (p : String) (m : M)
    (l : List (Event M O)) :
    ckptRecords (Event.best p m :: l) = ckptRecords l := rfl

@[simp] theorem bestPaths_nil {M O : Type} :
    bestPaths ([] : List (Event M O)) = [] := rfl

@[simp] theorem bestPaths_append {M O : Type} (a b : List (Event M O)) :
    bestPaths (a ++ b) = bestPaths a ++ bestPaths b :=
  List.filterMap_append a b _

@[simp] theorem bestPaths_epochStart {M O : Type} (e : ℕ) (l : List (Event M O)) :
    bestPaths (Event.epochStart e :: l) = bestPaths l := rfl

@[simp] theorem bestPaths_backward {M O : Type} (v : ℚ) (l : List (Event M O)) :
    bestPaths (Event.backward v :: l) = bestPaths l := rfl

@[simp] theorem bestPaths_ckpt {M O : Type} (p : String) (c : Checkpoint M O)
    (l : List (Event M O)) :
    bestPaths (Event.ckpt p c :: l) = bestPaths l := rfl

@[simp] theorem bestPaths_best {M O : Type} (p : String) (m : M)
    (l : List (Event M O)) :
    bestPaths (Event.best p m :: l) = p :: bestPaths l := rfl

@[simp] theorem backwardVals_nil {M O : Type} :
    backwardVals ([] : List (Event M O)) = [] := rfl

@[simp] theorem backwardVals_append {M O : Type} (a b : List (Event M O)) :
    backwardVals (a ++ b) = backwardVals a ++ backwardVals b :=
  List.filterMap_append a b _

@[simp] theorem backwardVals_epochStart {M O : Type} (e : ℕ) (l : List (Event M O)) :
    backwardVals (Event.epochStart e :: l) = backwardVals l := rfl

@[simp] theorem backwardVals_backward {M O : Type} (v : ℚ) (l : List (Event M O)) :
    backwardVals (Event.backward v :: l) = v :: backwardVals l := rfl

@[simp] theorem backwardVals_ckpt {M O : Type} (p : String) (c : Checkpoint M O)
    (l : List (Event M O)) :
    backwardVals (Event.ckpt p c :: l) = backwardVals l := rfl

@[simp] theorem backwardVals_best {M O : Type} (p : String) (m : M)
    (l : List (Event M O)) :
    backwardVals (Event.best p m :: l) = backwardVals l := rfl

@[simp] theorem epochStarts_nil {M O : Type} :
    epochStarts ([] : List (Event M O)) = [] := rfl

@[simp] theorem epochStarts_append {M O : Type} (a b : List (Event M O)) :
    epochStarts (a ++ b) = epochStarts a ++ epochStarts b :=
  List.filterMap_append a b _

@[simp] theorem epochStarts_epochStart {M O : Type} (e : ℕ) (l : List (Event M O)) :
    epochStarts (Event.epochStart e :: l) = e :: epochStarts l := rfl

@[simp] theorem epochStarts_backward {M O : Type} (v : ℚ) (l : List (Event M O)) :
    epochStarts (Event.backward v :: l) = epochStarts l := rfl

@[simp] theorem epochStarts_ckpt {M O : Type} (p : String) (c : Checkpoint M O)
    (l : List (Event M O)) :
    epochStarts (Event.ckpt p c :: l) = epochStarts l := rfl

@[simp] theorem epochStarts_best {M O : Type} (p : String) (m : M)
    (l : List (Event M O)) :
    epochStarts (Event.best p m :: l) = epochStarts l := rfl

@[simp] theorem backwardVals_map_backward {M O B C : Type} (f : B → C → ℚ)
    (bs : List (TBatch B C)) :
    backwardVals ((bs.map (fun b => Event.backward (tripleLoss f b))) : List (Event M O))
      = bs.map (tripleLoss f) := by
  induction bs with
  | nil => rfl
  | cons b bs ih => simp [ih]

@[simp] theorem ckptRecords_map_backward {M O B C : Type} (f : B → C → ℚ)
    (bs : List (TBatch B C)) :
    ckptRecords ((bs.map (fun b => Event.backward (tripleLoss f b))) : List (Event M O))
      = [] := by
  induction bs with
  | nil => rfl
  | cons b bs ih => simp [ih]

@[simp] theorem bestPaths_map_backward {M O B C : Type} (f : B → C → ℚ)
    (bs : List (TBatch B C)) :
    bestPaths ((bs.map (fun b => Event.backward (tripleLoss f b))) : List (Event M O))
      = [] := by
  induction bs with
  | nil => rfl
  | cons b bs ih => simp [ih]

@[simp] theorem epochStarts_map_backward {M O B C : Type} (f : B → C → ℚ)
    (bs : List (TBatch B C)) :
    epochStarts ((bs.map (fun b => Event.backward (tripleLoss f b))) : List (Event M O))
      = [] := by
  induction bs with
  | nil => rfl
  | cons b bs ih => simp [ih]

/-- With a bound loss function the batch loop never fails, pushes one
backward event per batch with the summed three-head loss, leaves the best
tracker alone, and fetches exactly the batches of the loader. -/
theorem runBatches_some {M O B C : Type} (f : B → C → ℚ)
    (stepM : M → O → TBatch B C → M × O) (bs : List (TBatch B C))
    (s : TrainSt M O) :
    (runBatches (some f) stepM bs s).2 = none
    ∧ (runBatches (some f) stepM bs s).1.events
        = s.events ++ bs.map (fun b => Event.backward (tripleLoss f b))
    ∧ (runBatches (some f) stepM bs s).1.max_miou = s.max_miou
    ∧ (runBatches (some f) stepM bs s).1.fetched = s.fetched + bs.length := by
  induction bs generalizing s with
  | nil => simp [runBatches]
  | cons b bs ih =>
    simp only [runBatches]
    obtain ⟨h1, h2, h3, h4⟩ := ih
      { s with fetched := s.fetched + 1,
               model := (stepM s.model s.opt b).1,
               opt := (stepM s.model s.opt b).2,
               events := s.events ++
                 [Event.backward (f b.output b.label + f b.output_sup1 b.label
                    + f b.output_sup2 b.label)] }
    refine ⟨h1, ?_, h3, ?_⟩
    · rw [h2]; simp [tripleLoss]
    · rw [h4]; simp; omega

/-- Characterisation of one epoch with a bound loss function: it never
fails; it appends one epoch-start marker, one backward event per batch with
the summed three-head loss, a checkpoint record (fixed latest path, current
epoch) exactly under the checkpoint guard, and a best-model write (fixed
best path) exactly under the validation guard when the returned mIoU
strictly exceeds the tracker, which is then updated. -/
theorem epochBody_some {M O B C : Type} (args : Args) (f : B → C → ℚ)
    (stepM : M → O → TBatch B C → M × O) (data : ℕ → List (TBatch B C))
    (valOf : ℕ → ℚ × ℚ) (e : ℕ) (s : TrainSt M O) :
    (epochBody args (some f) stepM data valOf e s).2 = none
    ∧ ckptRecords (epochBody args (some f) stepM data valOf e s).1.events
        = ckptRecords s.events ++
          (if stepCond args.checkpoint_step e then
            [(os_path_join args.save_model_path "latest_dice_loss.pth", e)] else [])
    ∧ bestPaths (epochBody args (some f) stepM data valOf e s).1.events
        = bestPaths s.events ++
          (if stepCond args.validation_step e then
            (if (valOf e).2 > s.max_miou then
              [os_path_join args.save_model_path "best_dice_loss.pth"] else [])
          else [])
    ∧ (epochBody args (some f) stepM data valOf e s).1.max_miou
        = (if stepCond args.validation_step e then bestUpd s.max_miou (valOf e).2
           else s.max_miou)
    ∧ backwardVals (epochBody args (some f) stepM data valOf e s).1.events
        = backwardVals s.events ++ (data e).map (tripleLoss f)
    ∧ epochStarts (epochBody args (some f) stepM data valOf e s).1.events
        = epochStarts s.events ++ [e]
    ∧ (epochBody args (some f) stepM data valOf e s).1.fetched
        = s.fetched + (data e).length := by
  obtain ⟨h1, h2, h3, h4⟩ := runBatches_some f stepM (data e)
    { s with events := s.events ++ [Event.epochStart e] }
  by_cases hc : stepCond args.checkpoint_step e <;>
    by_cases hv : stepCond args.validation_step e <;>
    by_cases hm : (valOf e).2 > s.max_miou <;>
    simp [epochBody, h1, h2, h3, h4, hc, hv, hm, bestUpd]

theorem valMious_cons (valOf : ℕ → ℚ × ℚ) (vstep e : ℕ) (es : List ℕ) :
    valMious valOf vstep (e :: es)
      = if stepCond vstep e then (valOf e).2 :: valMious valOf vstep es
        else valMious valOf vstep es := by
  simp only [valMious, List.filter_cons]
  split <;> simp

theorem runMax_cons (m x : ℚ) (l : List ℚ) :
    runMax m (x :: l) = runMax (bestUpd m x) l := rfl

/-- Characterisation of the whole epoch loop with a bound loss function:
no failure; the checkpoint records are exactly the guard-satisfying epochs
at the fixed latest path; the best tracker folds `bestUpd` over the
validation mIoUs; the best-model writes are one fixed-path write per
strictly-improving validation; backward events cover every batch of every
epoch in order; the epoch markers are exactly the executed epochs. -/
theorem runEpochs_some {M O B C : Type} (args : Args) (f : B → C → ℚ)
    (stepM : M → O → TBatch B C → M × O) (data : ℕ → List (TBatch B C))
    (valOf : ℕ → ℚ × ℚ) (es : List ℕ) (s : TrainSt M O) :
    (runEpochs args (some f) stepM data valOf es s).2 = none
    ∧ ckptRecords (runEpochs args (some f) stepM data valOf es s).1.events
        = ckptRecords s.events ++
          (es.filter (fun e => stepCond args.checkpoint_step e)).map
            (fun e => (os_path_join args.save_model_path "latest_dice_loss.pth", e))
    ∧ (runEpochs args (some f) stepM data valOf es s).1.max_miou
        = runMax s.max_miou (valMious valOf args.validation_step es)
    ∧ bestPaths (runEpochs args (some f) stepM data valOf es s).1.events
        = bestPaths s.events ++
          (bestWrites s.max_miou (valMious valOf args.validation_step es)).map
            (fun _ => os_path_join args.save_model_path "best_dice_loss.pth")
    ∧ backwardVals (runEpochs args (some f) stepM data valOf es s).1.events
        = backwardVals s.events ++ (es.map (fun e => (data e).map (tripleLoss f))).flatten
    ∧ epochStarts (runEpochs args (some f) stepM data valOf es s).1.events
        = epochStarts s.events ++ es
    ∧ (runEpochs args (some f) stepM data valOf es s).1.fetched
        = s.fetched + (es.map (fun e => (data e).length)).sum := by
  induction es generalizing s with
  | nil => simp [runEpochs, valMious, runMax, bestWrites]
  | cons e es ih =>
    obtain ⟨hb1, hb2, hb3, hb4, hb5, hb6, hb7⟩ :=
      epochBody_some args f stepM data valOf e s
    obtain ⟨h1, h2, h3, h4, h5, h6, h7⟩ :=
      ih (epochBody args (some f) stepM data valOf e s).1
    have hstep : runEpochs args (some f) stepM data valOf (e :: es) s
        = runEpochs args (some f) stepM data valOf es
            (epochBody args (some f) stepM data valOf e s).1 := by
      simp [runEpochs, hb1]
    rw [hstep]
    refine ⟨h1, ?_, ?_, ?_, ?_, ?_, ?_⟩
    · rw [h2, hb2, List.filter_cons]
      by_cases hc : stepCond args.checkpoint_step e <;> simp [hc]
    · rw [h3, hb4, valMious_cons]
      by_cases hv : stepCond args.validation_step e <;> simp [hv, runMax_cons]
    · rw [h4, hb3, hb4, valMious_cons]
      by_cases hv : stepCond args.validation_step e
      · by_cases hm : (valOf e).2 > s.max_miou
        · simp [hv, hm, bestWrites, bestUpd]
        · simp [hv, hm, bestWrites, bestUpd]
      · simp [hv]
    · rw [h5, hb5]
      simp
    · rw [h6, hb6]
      simp
    · rw [h7, hb7]
      simp [Nat.add_assoc]

theorem bestWrites_nil (m : ℚ) : bestWrites m [] = [] := rfl

theorem bestWrites_cons (m x : ℚ) (xs : List ℚ) :
    bestWrites m (x :: xs)
      = if x > m then x :: bestWrites x xs else bestWrites m xs := rfl

theorem le_bestUpd (m x : ℚ) : m ≤ bestUpd m x := by
  unfold bestUpd
  split
  · linarith
  · exact le_rfl

/-- The successive values of the best tracker form a non-decreasing chain. -/
theorem chain_maxSeq (m : ℚ) (l : List ℚ) :
    List.Chain' (fun a b => a ≤ b) (m :: maxSeq m l) := by
  induction l generalizing m with
  | nil => simp [maxSeq]
  | cons x xs ih =>
    rw [maxSeq, List.chain'_cons]
    exact ⟨le_bestUpd m x, ih (bestUpd m x)⟩

/-- Every value the tracker writes strictly exceeds the maximum it started
from. -/
theorem bestWrites_gt (l : List ℚ) : ∀ (m : ℚ), ∀ y ∈ bestWrites m l, m < y := by
  induction l with
  | nil => intro m y hy; simp [bestWrites] at hy
  | cons x xs ih =>
    intro m y hy
    rw [bestWrites_cons] at hy
    by_cases hx : x > m
    · rw [if_pos hx] at hy
      rcases List.mem_cons.mp hy with h | h
      · exact h ▸ hx
      · exact lt_trans hx (ih x y h)
    · rw [if_neg hx] at hy
      exact ih m y hy

/-- A prefix of values at or below the running maximum triggers no write
and leaves the maximum unchanged. -/
theorem bestWrites_nonpos_front (pre : List ℚ) (m : ℚ) (l : List ℚ)
    (h : ∀ y ∈ pre, y ≤ m) :
    bestWrites m (pre ++ l) = bestWrites m l
    ∧ runMax m (pre ++ l) = runMax m l := by
  induction pre with
  | nil => simp
  | cons y ys ih =>
    have hy : ¬ (y > m) := not_lt.mpr (h y (List.mem_cons_self y ys))
    have hupd : bestUpd m y = m := if_neg hy
    constructor
    · rw [List.cons_append, bestWrites_cons, if_neg hy]
      exact (ih (fun z hz => h z (List.mem_cons_of_mem y hz))).1
    · rw [List.cons_append, runMax_cons, hupd]
      exact (ih (fun z hz => h z (List.mem_cons_of_mem y hz))).2

theorem bestWrites_improving (m x : ℚ) (rest : List ℚ) (hx : x > m) :
    bestWrites m (x :: rest) = x :: bestWrites x rest := by
  rw [bestWrites_cons, if_pos hx]

/-- Prefix monotonicity of the running maximum: seeing further validations
never decreases the tracker. -/
theorem runMax_prefix_le (m : ℚ) (l1 l2 : List ℚ) :
    runMax m l1 ≤ runMax m (l1 ++ l2) := by
  have grow : ∀ (l : List ℚ) (a : ℚ), a ≤ runMax a l := by
    intro l
    induction l with
    | nil => intro a; exact le_rfl
    | cons x xs ih =>
      intro a
      exact le_trans (le_bestUpd a x) (ih (bestUpd a x))
  rw [runMax, runMax, List.foldl_append]
  exact grow l2 _

theorem train_eq_runEpochs {M O B C : Type} (args : Args) (k : LossKind)
    (hf : loss_func_of args.loss = some k)
    (lossSem : LossKind → B → C → ℚ) (stepM : M → O → TBatch B C → M × O)
    (data : ℕ → List (TBatch B C)) (valOf : ℕ → ℚ × ℚ)
    (m0 : M) (o0 : O) (curr : ℕ) :
    train args lossSem stepM data valOf m0 o0 curr
      = runEpochs args (some (lossSem k)) stepM data valOf
          (epochRange curr args.num_epochs)
          { model := m0, opt := o0, max_miou := 0, fetched := 0, events := [] } := by
  simp [train, hf]

/-- C7. With a supported loss and a positive checkpoint cadence, a run of
the training loop writes a checkpoint exactly at the executed epochs with
`epoch % checkpoint_step == 0 and epoch != 0`, always to the one fixed
latest path under the model directory (single-slot overwrite), each record
carrying that epoch; the payload type `Checkpoint` consists of exactly the
fields epoch, model_state_dict, optimizer_state_dict. -/
theorem C7_checkpoint_exactly_on_guard {M O B C : Type} (args : Args)
    (k : LossKind) (hf : loss_func_of args.loss = some k)
    (_hstep : 0 < args.checkpoint_step)
    (lossSem : LossKind → B → C → ℚ) (stepM : M → O → TBatch B C → M × O)
    (data : ℕ → List (TBatch B C)) (valOf : ℕ → ℚ × ℚ)
    (m0 : M) (o0 : O) (curr : ℕ) :
    ckptRecords (train args lossSem stepM data valOf m0 o0 curr).1.events
      = ((epochRange curr args.num_epochs).filter
          (fun e => stepCond args.checkpoint_step e)).map
          (fun e => (os_path_join args.save_model_path "latest_dice_loss.pth", e)) := by
  rw [train_eq_runEpochs args k hf lossSem stepM data valOf m0 o0 curr]
  have h := runEpochs_some args (lossSem k) stepM data valOf
      (epochRange curr args.num_epochs)
      { model := m0, opt := o0, max_miou := 0, fetched := 0, events := [] }
  rw [h.2.1]
  simp

/-- C3. With a supported loss and a positive validation cadence: the
best-model file is written exactly at the validations whose mIoU strictly
exceeds the running maximum (one fixed-path write per element of
`bestWrites`, whose payload is the model state dict only); the tracked
maximum equals the `bestUpd` fold of the validation mIoUs from 0 and its
successive values form a non-decreasing chain; and on the mIoU sequence
[0.40, 0.35, 0.50] exactly the two writes at 0.40 and 0.50 happen. -/
theorem C3_best_model_write_policy {M O B C : Type} (args : Args)
    (k : LossKind) (hf : loss_func_of args.loss = some k)
    (_hv : 0 < args.validation_step)
    (lossSem : LossKind → B → C → ℚ) (stepM : M → O → TBatch B C → M × O)
    (data : ℕ → List (TBatch B C)) (valOf : ℕ → ℚ × ℚ)
    (m0 : M) (o0 : O) (curr : ℕ) :
    bestPaths (train args lossSem stepM data valOf m0 o0 curr).1.events
        = (bestWrites 0 (valMious valOf args.validation_step
              (epochRange curr args.num_epochs))).map
            (fun _ => os_path_join args.save_model_path "best_dice_loss.pth")
    ∧ (train args lossSem stepM data valOf m0 o0 curr).1.max_miou
        = runMax 0 (valMious valOf args.validation_step
            (epochRange curr args.num_epochs))
    ∧ List.Chain' (fun a b => a ≤ b)
        (0 :: maxSeq 0 (valMious valOf args.validation_step
            (epochRange curr args.num_epochs)))
    ∧ (∀ l1 l2 : List ℚ, runMax 0 l1 ≤ runMax 0 (l1 ++ l2))
    ∧ bestWrites 0 [2/5, 7/20, 1/2] = [2/5, 1/2] := by
  rw [train_eq_runEpochs args k hf lossSem stepM data valOf m0 o0 curr]
  have h := runEpochs_some args (lossSem k) stepM data valOf
      (epochRange curr args.num_epochs)
      { model := m0, opt := o0, max_miou := 0, fetched := 0, events := [] }
  refine ⟨?_, ?_, chain_maxSeq 0 _, fun l1 l2 => runMax_prefix_le 0 l1 l2,
    by norm_num [bestWrites_cons, bestWrites_nil]⟩
  · rw [h.2.2.2.1]; simp
  · rw [h.2.2.1]

/-- C9. With a supported loss, the loss values sent to backward over a whole
run are, batch for batch and in order, the unweighted sum of the chosen loss
applied independently to each of the three model outputs against the same
label. -/
theorem C9_backward_loss_is_three_head_sum {M O B C : Type} (args : Args)
    (k : LossKind) (hf : loss_func_of args.loss = some k)
    (lossSem : LossKind → B → C → ℚ) (stepM : M → O → TBatch B C → M × O)
    (data : ℕ → List (TBatch B C)) (valOf : ℕ → ℚ × ℚ)
    (m0 : M) (o0 : O) (curr : ℕ) :
    backwardVals (train args lossSem stepM data valOf m0 o0 curr).1.events
      = ((epochRange curr args.num_epochs).map (fun e =>
          (data e).map (fun b =>
            lossSem k b.output b.label + lossSem k b.output_sup1 b.label
              + lossSem k b.output_sup2 b.label))).flatten := by
  rw [train_eq_runEpochs args k hf lossSem stepM data valOf m0 o0 curr]
  have h := runEpochs_some args (lossSem k) stepM data valOf
      (epochRange curr args.num_epochs)
      { model := m0, opt := o0, max_miou := 0, fetched := 0, events := [] }
  rw [h.2.2.2.2.1]
  rfl

/-- C10. The best tracker starts at 0 on every invocation of the training
loop and is not restored from the checkpoint (whose record has no such
field): after resuming from any checkpoint, the final maximum is the fold
from 0 of this run's validation mIoUs, and any checkpoint with the same
epoch yields the same maximum; if the validation mIoUs are a nonpositive
prefix followed by a first strictly positive value x, that first positive
validation already overwrites the best file; and no written value is ≤ 0. -/
theorem C10_best_tracker_not_restored {M O B C : Type} (args : Args)
    (k : LossKind) (hf : loss_func_of args.loss = some k)
    (_hv : 0 < args.validation_step) (w : OptName)
    (hopt : buildOptimizer args.optimizer = some w)
    (lossSem : LossKind → B → C → ℚ) (stepM : M → O → TBatch B C → M × O)
    (data : ℕ → List (TBatch B C)) (valOf : ℕ → ℚ × ℚ)
    (m_init : M) (o_init : O) (ckpt : Checkpoint M O)
    (pre : List ℚ) (x : ℚ) (rest : List ℚ)
    (hsplit : valMious valOf args.validation_step
        (epochRange (ckpt.epoch + 1) args.num_epochs) = pre ++ x :: rest)
    (hpre : ∀ y ∈ pre, y ≤ 0) (hx : 0 < x) :
    (mainRun args lossSem stepM data valOf m_init o_init (some ckpt)).st.max_miou
        = runMax 0 (pre ++ x :: rest)
    ∧ (∀ c2 : Checkpoint M O, c2.epoch = ckpt.epoch →
        (mainRun args lossSem stepM data valOf m_init o_init (some c2)).st.max_miou
          = runMax 0 (pre ++ x :: rest))
    ∧ bestPaths (mainRun args lossSem stepM data valOf m_init o_init
          (some ckpt)).st.events
        = (x :: bestWrites x rest).map
            (fun _ => os_path_join args.save_model_path "best_dice_loss.pth")
    ∧ (∀ y ∈ bestWrites 0 (pre ++ x :: rest), 0 < y) := by
  have hmain : ∀ c2 : Checkpoint M O,
      mainRun args lossSem stepM data valOf m_init o_init (some c2)
        = { curr_epoch := c2.epoch + 1,
            st := (train args lossSem stepM data valOf c2.model_state_dict
              c2.optimizer_state_dict (c2.epoch + 1)).1,
            error := (train args lossSem stepM data valOf c2.model_state_dict
              c2.optimizer_state_dict (c2.epoch + 1)).2 } := by
    intro c2
    simp [mainRun, hopt]
  have hmax : ∀ c2 : Checkpoint M O, c2.epoch = ckpt.epoch →
      (mainRun args lossSem stepM data valOf m_init o_init (some c2)).st.max_miou
        = runMax 0 (pre ++ x :: rest) := by
    intro c2 hc2
    rw [hmain c2]
    rw [train_eq_runEpochs args k hf lossSem stepM data valOf _ _ _]
    have h := runEpochs_some args (lossSem k) stepM data valOf
        (epochRange (c2.epoch + 1) args.num_epochs)
        { model := c2.model_state_dict, opt := c2.optimizer_state_dict,
          max_miou := 0, fetched := 0, events := [] }
    rw [h.2.2.1]
    rw [hc2, hsplit]
  have hwrites : bestWrites 0 (pre ++ x :: rest) = x :: bestWrites x rest := by
    rw [(bestWrites_nonpos_front pre 0 (x :: rest) hpre).1,
        bestWrites_improving 0 x rest hx]
  refine ⟨hmax ckpt rfl, hmax, ?_, ?_⟩
  · rw [hmain ckpt]
    rw [train_eq_runEpochs args k hf lossSem stepM data valOf _ _ _]
    have h := runEpochs_some args (lossSem k) stepM data valOf
        (epochRange (ckpt.epoch + 1) args.num_epochs)
        { model := ckpt.model_state_dict, opt := ckpt.optimizer_state_dict,
          max_miou := 0, fetched := 0, events := [] }
    rw [h.2.2.2.1, hsplit, hwrites]
    simp
  · intro y hy
    exact bestWrites_gt (pre ++ x :: rest) 0 y hy

/-- C6. An optimizer name outside rmsprop/sgd/adam makes the orchestrator
return before training: the reported error is the unsupported-optimizer
abort, no batch is fetched, and the event trace is empty, so in particular
no checkpoint file is created. -/
theorem C6_unsupported_optimizer_aborts {M O B C : Type} (args : Args)
    (h1 : args.optimizer ≠ "rmsprop") (h2 : args.optimizer ≠ "sgd")
    (h3 : args.optimizer ≠ "adam")
    (lossSem : LossKind → B → C → ℚ) (stepM : M → O → TBatch B C → M × O)
    (data : ℕ → List (TBatch B C)) (valOf : ℕ → ℚ × ℚ)
    (m_init : M) (o_init : O) (pretrained : Option (Checkpoint M O)) :
    (mainRun args lossSem stepM data valOf m_init o_init pretrained).error
        = some RunError.unsupportedOptimizer
    ∧ (mainRun args lossSem stepM data valOf m_init o_init pretrained).st.fetched = 0
    ∧ (mainRun args lossSem stepM data valOf m_init o_init pretrained).st.events = []
    ∧ ckptRecords (mainRun args lossSem stepM data valOf m_init o_init
        pretrained).st.events = [] := by
  have hb : buildOptimizer args.optimizer = none := by
    simp [buildOptimizer, h1, h2, h3]
  simp [mainRun, hb]

/-- C2 (amended). An unsupported loss name does not abort before training:
with at least one epoch to run and a non-empty loader, the run starts the
first epoch, fetches and forward-processes its first batch (fetched = 1),
and only then fails with the unbound `loss_func` application; no checkpoint
and no best-model write has happened by then. -/
theorem C2_unsupported_loss_fails_at_first_batch {M O B C : Type}
    (args : Args) (hname : loss_func_of args.loss = none)
    (lossSem : LossKind → B → C → ℚ) (stepM : M → O → TBatch B C → M × O)
    (data : ℕ → List (TBatch B C)) (valOf : ℕ → ℚ × ℚ)
    (m0 : M) (o0 : O) (curr : ℕ)
    (hep : curr < args.num_epochs) (hbatch : data (curr + 1) ≠ []) :
    (train args lossSem stepM data valOf m0 o0 curr).2 = some RunError.unboundLoss
    ∧ (train args lossSem stepM data valOf m0 o0 curr).1.fetched = 1
    ∧ ckptRecords (train args lossSem stepM data valOf m0 o0 curr).1.events = []
    ∧ bestPaths (train args lossSem stepM data valOf m0 o0 curr).1.events = []
    ∧ epochStarts (train args lossSem stepM data valOf m0 o0 curr).1.events
        = [curr + 1] := by
  obtain ⟨b, bs, hdat⟩ := List.exists_cons_of_ne_nil hbatch
  have hrange : epochRange curr args.num_epochs
      = (curr + 1) :: List.range' (curr + 2) (args.num_epochs - curr - 1) := by
    rw [epochRange]
    have hn : args.num_epochs - curr = (args.num_epochs - curr - 1) + 1 := by omega
    rw [hn, List.range'_succ]
    rfl
  simp [train, hname, hrange, runEpochs, epochBody, runBatches, hdat]

/-- C1 (code-bug exhibit). Resume from a checkpoint whose epoch field is 5,
with num_epochs = 8: loading does set curr_epoch = 6 = 5 + 1 and restores
the model and optimizer states value-identically (42 and 99), but the first
epoch the training loop executes is 7 = 5 + 2, and epoch 6 — the one the
claim and the spec say training resumes at — is skipped: the executed
epochs are [7, 8]. The double increment comes from line 229 of
src/train.py (`curr_epoch = loaded_checkpoint['epoch'] + 1`) combined with
line 76 (`range(curr_epoch + 1, num_epochs + 1)`); the fresh-run path
(curr_epoch = 0, first epoch 1) shows the loop treats `curr_epoch` as the
last completed epoch, so the claim (and the spec) state the intent and the
code is off by one. -/
theorem C1_resume_skips_an_epoch :
    (mainRun argsC1 lossW stepW dataEmpty valW 0 0
        (some { epoch := 5, model_state_dict := 42,
                optimizer_state_dict := 99 })).curr_epoch = 6
    ∧ (mainRun argsC1 lossW stepW dataEmpty valW 0 0
        (some { epoch := 5, model_state_dict := 42,
                optimizer_state_dict := 99 })).st.model = 42
    ∧ (mainRun argsC1 lossW stepW dataEmpty valW 0 0
        (some { epoch := 5, model_state_dict := 42,
                optimizer_state_dict := 99 })).st.opt = 99
    ∧ epochStarts (mainRun argsC1 lossW stepW dataEmpty valW 0 0
        (some { epoch := 5, model_state_dict := 42,
                optimizer_state_dict := 99 })).st.events = [7, 8]
    ∧ 5 + 1 ∉ epochStarts (mainRun argsC1 lossW stepW dataEmpty valW 0 0
        (some { epoch := 5, model_state_dict := 42,
                optimizer_state_dict := 99 })).st.events := by
  decide

/-- C2 (counterexample). With the unsupported loss name "focal" and a
non-empty training loader, the run does not abort before training starts:
epoch 1 begins, its first batch is fetched and forward-processed
(fetched = 1), and only the loss application fails (unbound `loss_func`),
refuting "detected before training starts ... no batch processed". -/
theorem C2_counterexample :
    (train argsFoo lossW stepW dataW valW (0 : ℕ) (0 : ℕ) 0).2
        = some RunError.unboundLoss
    ∧ (train argsFoo lossW stepW dataW valW (0 : ℕ) (0 : ℕ) 0).1.fetched = 1
    ∧ epochStarts (train argsFoo lossW stepW dataW valW
        (0 : ℕ) (0 : ℕ) 0).1.events = [1] := by
  decide

/-- Witness for C7 at the concrete fixture run (epochs [1,2,3], cadence 2:
checkpoint exactly at epoch 2). -/
theorem C7_checkpoint_exactly_on_guard_witness :
    loss_func_of argsW.loss = some LossKind.dice ∧ 0 < argsW.checkpoint_step ∧
    ckptRecords (train argsW lossW stepW dataW valW (0 : ℕ) (0 : ℕ) 0).1.events
      = ((epochRange 0 argsW.num_epochs).filter
          (fun e => stepCond argsW.checkpoint_step e)).map
          (fun e => (os_path_join argsW.save_model_path "latest_dice_loss.pth", e)) :=
  ⟨by decide, by decide,
    C7_checkpoint_exactly_on_guard argsW LossKind.dice (by decide) (by decide)
      lossW stepW dataW valW 0 0 0⟩

/-- Witness for C3 at the concrete fixture run whose validation mIoUs are
exactly [2/5, 7/20, 1/2] = [0.40, 0.35, 0.50]. -/
theorem C3_best_model_write_policy_witness :
    loss_func_of argsW.loss = some LossKind.dice ∧ 0 < argsW.validation_step ∧
    (bestPaths (train argsW lossW stepW dataW valW (0 : ℕ) (0 : ℕ) 0).1.events
        = (bestWrites 0 (valMious valW argsW.validation_step
              (epochRange 0 argsW.num_epochs))).map
            (fun _ => os_path_join argsW.save_model_path "best_dice_loss.pth")
    ∧ (train argsW lossW stepW dataW valW (0 : ℕ) (0 : ℕ) 0).1.max_miou
        = runMax 0 (valMious valW argsW.validation_step
            (epochRange 0 argsW.num_epochs))
    ∧ List.Chain' (fun a b => a ≤ b)
        (0 :: maxSeq 0 (valMious valW argsW.validation_step
            (epochRange 0 argsW.num_epochs)))
    ∧ (∀ l1 l2 : List ℚ, runMax 0 l1 ≤ runMax 0 (l1 ++ l2))
    ∧ bestWrites 0 [2/5, 7/20, 1/2] = [2/5, 1/2]) :=
  ⟨by decide, by decide,
    C3_best_model_write_policy argsW LossKind.dice (by decide) (by decide)
      lossW stepW dataW valW 0 0 0⟩

/-- Witness for C9 at the concrete fixture run. -/
theorem C9_backward_loss_is_three_head_sum_witness :
    loss_func_of argsW.loss = some LossKind.dice ∧
    backwardVals (train argsW lossW stepW dataW valW (0 : ℕ) (0 : ℕ) 0).1.events
      = ((epochRange 0 argsW.num_epochs).map (fun e =>
          (dataW e).map (fun b =>
            lossW LossKind.dice b.output b.label
              + lossW LossKind.dice b.output_sup1 b.label
              + lossW LossKind.dice b.output_sup2 b.label))).flatten :=
  ⟨by decide,
    C9_backward_loss_is_three_head_sum argsW LossKind.dice (by decide)
      lossW stepW dataW valW 0 0 0⟩

/-- Witness for C10 at a resumed fixture run: checkpoint epoch 0, executed
epochs [2, 3], validation mIoUs [0, 1] (a nonpositive value followed by the
first positive one). -/
theorem C10_best_tracker_not_restored_witness :
    loss_func_of argsW.loss = some LossKind.dice ∧ 0 < argsW.validation_step ∧
    buildOptimizer argsW.optimizer = some OptName.sgd ∧
    valMious valW10 argsW.validation_step
        (epochRange (ckptW.epoch + 1) argsW.num_epochs) = [0] ++ (1 : ℚ) :: [] ∧
    (∀ y ∈ [(0 : ℚ)], y ≤ 0) ∧ (0 : ℚ) < 1 ∧
    ((mainRun argsW lossW stepW dataW valW10 (0 : ℕ) (0 : ℕ)
        (some ckptW)).st.max_miou = runMax 0 ([0] ++ (1 : ℚ) :: [])
    ∧ (∀ c2 : Checkpoint ℕ ℕ, c2.epoch = ckptW.epoch →
        (mainRun argsW lossW stepW dataW valW10 (0 : ℕ) (0 : ℕ)
          (some c2)).st.max_miou = runMax 0 ([0] ++ (1 : ℚ) :: []))
    ∧ bestPaths (mainRun argsW lossW stepW dataW valW10 (0 : ℕ) (0 : ℕ)
          (some ckptW)).st.events
        = ((1 : ℚ) :: bestWrites 1 []).map
            (fun _ => os_path_join argsW.save_model_path "best_dice_loss.pth")
    ∧ (∀ y ∈ bestWrites 0 ([0] ++ (1 : ℚ) :: []), 0 < y)) :=
  ⟨by decide, by decide, by decide, by decide, by decide, by decide,
    C10_best_tracker_not_restored argsW LossKind.dice (by decide) (by decide)
      OptName.sgd (by decide) lossW stepW dataW valW10 0 0 ckptW
      [0] 1 [] (by decide) (by decide) (by decide)⟩

/-- Witness for C6 with the unsupported optimizer name "foo". -/
theorem C6_unsupported_optimizer_aborts_witness :
    argsOpt.optimizer ≠ "rmsprop" ∧ argsOpt.optimizer ≠ "sgd" ∧
    argsOpt.optimizer ≠ "adam" ∧
    ((mainRun argsOpt lossW stepW dataW valW (0 : ℕ) (0 : ℕ) none).error
        = some RunError.unsupportedOptimizer
    ∧ (mainRun argsOpt lossW stepW dataW valW (0 : ℕ) (0 : ℕ) none).st.fetched = 0
    ∧ (mainRun argsOpt lossW stepW dataW valW (0 : ℕ) (0 : ℕ) none).st.events = []
    ∧ ckptRecords (mainRun argsOpt lossW stepW dataW valW
        (0 : ℕ) (0 : ℕ) none).st.events = []) :=
  ⟨by decide, by decide, by decide,
    C6_unsupported_optimizer_aborts argsOpt (by decide) (by decide) (by decide)
      lossW stepW dataW valW 0 0 none⟩

/-- Witness for the amended C2 at the concrete "focal"-loss fixture run. -/
theorem C2_unsupported_loss_fails_at_first_batch_witness :
    loss_func_of argsFoo.loss = none ∧ 0 < argsFoo.num_epochs ∧
    dataW (0 + 1) ≠ [] ∧
    ((train argsFoo lossW stepW dataW valW (0 : ℕ) (0 : ℕ) 0).2
        = some RunError.unboundLoss
    ∧ (train argsFoo lossW stepW dataW valW (0 : ℕ) (0 : ℕ) 0).1.fetched = 1
    ∧ ckptRecords (train argsFoo lossW stepW dataW valW
        (0 : ℕ) (0 : ℕ) 0).1.events = []
    ∧ bestPaths (train argsFoo lossW stepW dataW valW
        (0 : ℕ) (0 : ℕ) 0).1.events = []
    ∧ epochStarts (train argsFoo lossW stepW dataW valW
        (0 : ℕ) (0 : ℕ) 0).1.events = [0 + 1]) :=
  ⟨by decide, by decide, by decide,
    C2_unsupported_loss_fails_at_first_batch argsFoo (by decide)
      lossW stepW dataW valW 0 0 0 (by decide) (by decide)⟩

end Project2IDDA
